import Mathlib

/-!
Verification of the asset-level output-allocation and emissions-projection
engine (steel pipeline).  The definitions below are shallow embeddings of
the Python source under src/pipeline: machine floats become exact rationals,
pandas NaN becomes Option, and DataFrame loops become list folds.
-/

namespace AssetData

/-! ### Rounding (numpy / pandas round-half-to-even, used by `.round(n)`) -/

/-- Round a rational to the nearest integer, ties to the even integer,
as numpy and pandas `round` do. -/
def roundHalfEven (x : ℚ) : ℤ :=
  let n := ⌊x⌋
  let frac := x - n
  if frac < 1/2 then n
  else if 1/2 < frac then n + 1
  else if n % 2 = 0 then n else n + 1

/-- Model of Python / pandas `round(x, d)` on rationals. -/
def pyRound (d : Nat) (x : ℚ) : ℚ :=
  (roundHalfEven (x * (10 : ℚ) ^ d) : ℚ) / (10 : ℚ) ^ d

/-! ### Lifecycle data model (GEM GIST unit and plant records)

`unit_status` strings in the source ("operating", "operating pre-retirement",
"retired", "mothballed", "construction", "announced", "cancelled") are
embedded as an enumeration.  The string tests of the source translate as:
`status in ("retired", "mothballed")` holds exactly for `retired`/`mothballed`;
`"pre-retirement" in status` holds exactly for `operatingPreRetirement`;
`status == "cancelled"` holds exactly for `cancelled`. -/

inductive UnitStatus
  | operating
  | operatingPreRetirement
  | retired
  | mothballed
  | construction
  | announced
  | cancelled
  deriving DecidableEq, Repr

/-- One GEM steel-making unit row, fields used by gem_closure_tp.py
(`unit_status`, `start_year`, `retired_year`, `pre_retirement_announced_year`,
`capacity_ttpa`, `country`).  NaN date fields become `none`. -/
structure GemUnit where
  status : UnitStatus
  startYear : Option Int
  retiredYear : Option Int
  preRetirementAnnouncedYear : Option Int
  country : String
  capacityTtpa : ℚ
  deriving DecidableEq, Repr

/-- Embedding of `_infer_close_year` (gem_closure_tp.py lines 205-222):
retired/mothballed use `retired_year`, else 2023; pre-retirement uses
`retired_year`, else announcement + 5, else 2030; all other statuses
(operating, construction, announced, cancelled) have no closure (NaN). -/
def inferCloseYear (u : GemUnit) : Option Int :=
  if u.status = .retired ∨ u.status = .mothballed then
    match u.retiredYear with
    | some r => some r
    | none => some 2023
  else if u.status = .operatingPreRetirement then
    match u.retiredYear with
    | some r => some r
    | none =>
      match u.preRetirementAnnouncedYear with
      | some a => some (a + 5)
      | none => some 2030
  else none

/-- Embedding of the close-year inference inside `build_closure_inventory`
(kampmann_audit.py lines 307-338): identical shape to `inferCloseYear`
except that retired/mothballed units without a date fall back to 2024
("assume already closed by data vintage"). -/
def inventoryCloseYear (u : GemUnit) : Option Int :=
  if u.status = .retired ∨ u.status = .mothballed then
    match u.retiredYear with
    | some r => some r
    | none => some 2024
  else if u.status = .operatingPreRetirement then
    match u.retiredYear with
    | some r => some r
    | none =>
      match u.preRetirementAnnouncedYear with
      | some a => some (a + 5)
      | none => some 2030
  else none

/-- Embedding of `_unit_is_active` (gem_closure_tp.py lines 225-246):
cancelled is never active; a unit with a known start year after `year`
is not active; a unit whose close year is at or before `year` is not
active; otherwise active (announced units are included). -/
def unitIsActive (u : GemUnit) (year : Int) (closeYear : Option Int) : Bool :=
  !(decide (u.status = .cancelled))
  && !(match u.startYear with
      | some s => decide (year < s)
      | none => false)
  && !(match closeYear with
      | some c => decide (c ≤ year)
      | none => false)

/-- Close year used by `build_plant_level_tp`: `_infer_close_year` per unit,
overwritten with NaN when `skip_closures` (BAU / no-closure mode). -/
def planCloseYear (skipClosures : Bool) (u : GemUnit) : Option Int :=
  if skipClosures then none else inferCloseYear u

/-- Activity of a unit in a year under one of the two policies of
`build_plant_level_tp` (gem_closure_tp.py lines 249-330). -/
def policyActive (skipClosures : Bool) (u : GemUnit) (year : Int) : Bool :=
  unitIsActive u year (planCloseYear skipClosures u)

/-- Planned-transition activity (closures occur on schedule). -/
def tpActive (u : GemUnit) (year : Int) : Bool := policyActive false u year

/-- No-closure / BAU activity (`skip_closures=True`: close years erased). -/
def bauActive (u : GemUnit) (year : Int) : Bool := policyActive true u year

/-- One GEM plant row as used by apa_calculator.py (`status`, `start_year`,
`country`, `process`-derived `ef`, `capacity_ttpa`). -/
structure GemPlant where
  status : UnitStatus
  startYear : Option Int
  country : String
  capacityTtpa : ℚ
  ef : ℚ
  deriving DecidableEq, Repr

/-- Pandas comparison `start_year <= year` (False on NaN). -/
def plantStarted (p : GemPlant) (year : Int) : Bool :=
  match p.startYear with
  | some s => decide (s ≤ year)
  | none => false

/-- Embedding of the row predicate of `get_plants_for_year`
(apa_calculator.py lines 598-647): the union of the operating,
construction and retired/mothballed masks, each requiring
`start_year <= year`; announced and cancelled are always excluded. -/
def plantActiveInYear (p : GemPlant) (year : Int) : Bool :=
  ((decide (p.status = .operating) || decide (p.status = .operatingPreRetirement))
     && plantStarted p year)
  || (decide (p.status = .construction) && plantStarted p year)
  || ((decide (p.status = .retired) || decide (p.status = .mothballed))
     && plantStarted p year)

/-- `get_plants_for_year` itself: keep the rows passing the combined mask. -/
def getPlantsForYear (allPlants : List GemPlant) (year : Int) : List GemPlant :=
  allPlants.filter (fun p => plantActiveInYear p year)

/-! ### Utilization-rate calibration (gem_closure_tp.py) -/

/-- Embedding of the UR calibration shared verbatim by `generate_company_tp`
(lines 380-386) and `generate_company_bau` (lines 602-606): when base
capacity and APA production are both positive, the ratio clipped to
[0.40, 1.0]; otherwise the default 0.80.  Missing APA production (NaN)
is `none`. -/
def calibrateUR (baseCapacityMt : ℚ) (apaProduction : Option ℚ) : ℚ :=
  match apaProduction with
  | some p =>
    if 0 < baseCapacityMt ∧ 0 < p then
      max (2/5) (min (p / baseCapacityMt) 1)
    else 4/5
  | none => 4/5

/-! ### Output allocation (`calculate_company_emissions`,
apa_calculator.py lines 726-833) -/

/-- `capacity_mt = capacity_ttpa / 1000`. -/
def GemPlant.capMt (p : GemPlant) : ℚ := p.capacityTtpa / 1000

/-- `total_capacity_mt = sum(capacity_ttpa) / 1000`. -/
def totalCapMt (ps : List GemPlant) : ℚ := (ps.map (·.capacityTtpa)).sum / 1000

/-- Uniform-UR allocation branch: each plant gets
`capacity_mt * (production_mt / total_capacity_mt)`. -/
def uniformAllocation (ps : List GemPlant) (production : ℚ) : List ℚ :=
  ps.map (fun p => p.capMt * (production / totalCapMt ps))

/-- Per-plant allocation state of the country loop: the plant, its
`allocated` value (initially the zero series) and its `unmatched_mask`
entry (initially True). -/
structure Slot where
  plant : GemPlant
  alloc : ℚ
  unm : Bool
  deriving DecidableEq, Repr

/-- Sum of the `allocated` series. -/
def sumAlloc (slots : List Slot) : ℚ := (slots.map (·.alloc)).sum

/-- `country_cap`: total `capacity_mt` of the plants of one country. -/
def countryCapMt (c : String) (slots : List Slot) : ℚ :=
  ((slots.filter (fun s => decide (s.plant.country = c))).map
    (fun s => s.plant.capMt)).sum

/-- One iteration of the `for country, prod_mt_country in
country_production.items()` loop: when the country has positive capacity
and a matching plant, its plants receive `capacity_mt * (sub_target /
country_cap)`, the sub-target is subtracted from the remaining production,
and the matched plants leave the unmatched mask; otherwise no change. -/
def stepCountry (st : List Slot × ℚ) (cp : String × ℚ) : List Slot × ℚ :=
  let cap := countryCapMt cp.1 st.1
  if 0 < cap ∧ st.1.any (fun s => decide (s.plant.country = cp.1)) then
    (st.1.map (fun s =>
       if s.plant.country = cp.1 then
         ⟨s.plant, s.plant.capMt * (cp.2 / cap), false⟩
       else s),
     st.2 - cp.2)
  else st

/-- Zero allocation, all plants unmatched. -/
def initSlots (ps : List GemPlant) : List Slot := ps.map (fun p => ⟨p, 0, true⟩)

/-- State after the whole country loop: allocations and
`remaining_production`. -/
def countryFoldState (ps : List GemPlant) (cps : List (String × ℚ))
    (production : ℚ) : List Slot × ℚ :=
  cps.foldl stepCountry (initSlots ps, production)

/-- `unmatched_cap`: total `capacity_mt` of plants still unmatched. -/
def unmCapMt (slots : List Slot) : ℚ :=
  ((slots.filter (·.unm)).map (fun s => s.plant.capMt)).sum

/-- Residual step: `if remaining_production > 0 and unmatched_mask.any()`,
and the unmatched capacity is positive, spread the remaining production
over the unmatched plants by capacity. -/
def residualSpread (st : List Slot × ℚ) : List Slot :=
  if 0 < st.2 ∧ st.1.any (·.unm) then
    let capU := unmCapMt st.1
    if 0 < capU then
      st.1.map (fun s =>
        if s.unm then ⟨s.plant, s.plant.capMt * (st.2 / capU), s.unm⟩ else s)
    else st.1
  else st.1

/-- Country-level (region sub-target) allocation branch of
`calculate_company_emissions`: the `allocated` series after the country
loop and the residual spread. -/
def countryAllocation (ps : List GemPlant) (cps : List (String × ℚ))
    (production : ℚ) : List ℚ :=
  (residualSpread (countryFoldState ps cps production)).map (·.alloc)

/-- `remaining_production` left after the country loop. -/
def allocRemaining (ps : List GemPlant) (cps : List (String × ℚ))
    (production : ℚ) : ℚ :=
  (countryFoldState ps cps production).2

/-- Unmatched capacity left after the country loop. -/
def allocUnmatchedCapMt (ps : List GemPlant) (cps : List (String × ℚ))
    (production : ℚ) : ℚ :=
  unmCapMt (countryFoldState ps cps production).1

/-- Result dictionary of `calculate_company_emissions` (numeric fields,
rounded as in the source). -/
structure ApaResult where
  totalCapacityMt : ℚ
  utilizationRate : ℚ
  allocatedMt : List ℚ
  emissionsMt : ℚ
  weightedEf : ℚ
  nPlants : Nat
  deriving DecidableEq, Repr

/-- Embedding of `calculate_company_emissions` for an already-matched plant
set: `None` when no plants match or total active capacity is nonpositive
(the "no data" guard, lines 760-769); otherwise the per-plant allocation
in the requested mode, emissions `allocated * ef`, and the company totals. -/
def calculateCompanyEmissions (companyPlants : List GemPlant) (production : ℚ)
    (countryProduction : Option (List (String × ℚ))) : Option ApaResult :=
  if companyPlants.isEmpty then none
  else
    let totalCap := totalCapMt companyPlants
    if totalCap ≤ 0 then none
    else
      let ur := production / totalCap
      let alloc :=
        match countryProduction with
        | some cps => countryAllocation companyPlants cps production
        | none => uniformAllocation companyPlants production
      let emissions := (List.zipWith (fun p a => a * p.ef) companyPlants alloc).sum
      some {
        totalCapacityMt := pyRound 3 totalCap
        utilizationRate := pyRound 4 ur
        allocatedMt := alloc
        emissionsMt := pyRound 3 emissions
        weightedEf := if 0 < production then pyRound 3 (emissions / production) else 0
        nPlants := companyPlants.length }

/-- Embedding of the result loop of `run_apa_all` (apa_calculator.py lines
1605-1641): each (plant set, production, country production) row is run
through `calculate_company_emissions` and the record is skipped — dropped
from the reported results, with a warning — when its utilization rate
exceeds 1.5 (lines 1621-1630). -/
def apaReportRows
    (inputs : List (List GemPlant × ℚ × Option (List (String × ℚ)))) :
    List ApaResult :=
  inputs.foldr (fun inp acc =>
    match calculateCompanyEmissions inp.1 inp.2.1 inp.2.2 with
    | some r => if (3/2 : ℚ) < r.utilizationRate then acc else r :: acc
    | none => acc) []

/-! ### Capacity-based gap-filling (`estimate_production_from_capacity`,
apa_calculator.py lines 1478-1563) -/

/-- Utilization samples of one company (plant list already matched to the
company upstream): for each (year, production) row with positive
year-specific GEM capacity from `get_plants_for_year`, the ratio is kept
only when it lies in the sanity band `0.1 <= ur <= 1.5` (line 1522). -/
def urSamples (allPlants : List GemPlant) (prodRows : List (Int × ℚ)) :
    List (Int × ℚ) :=
  prodRows.filterMap (fun row =>
    let capMt := ((getPlantsForYear allPlants row.1).map (·.capacityTtpa)).sum / 1000
    if 0 < capMt then
      let ur := row.2 / capMt
      if 1/10 ≤ ur ∧ ur ≤ 3/2 then some (row.1, ur) else none
    else none)

/-- Average UR over the earliest 3 samples (lines 1528-1531); `none`
when there is no sample at all. -/
def calibratedURFromSamples (samples : List (Int × ℚ)) : Option ℚ :=
  if samples.isEmpty then none
  else
    let earliest := (List.insertionSort (fun a b => a.1 ≤ b.1) samples).take 3
    some ((earliest.map (·.2)).sum / earliest.length)

/-! ### Trajectory anchoring (`generate_company_tp` lines 410-429 and the
verbatim copy in `generate_company_bau` lines 632-648) -/

/-- One raw company-year row of the aggregated trajectory, before
anchoring (`tp_emissions_raw`, `tp_production_raw`). -/
structure AnnualRow where
  year : Int
  emRaw : ℚ
  prodRaw : ℚ
  deriving DecidableEq, Repr

/-- `gem_base_em`: the raw base-year emissions value, `NaN` (none) when
the base year is absent or the value is not positive. -/
def rawBaseValue (rows : List AnnualRow) (baseYear : Int) : Option ℚ :=
  match rows.find? (fun r => decide (r.year = baseYear)) with
  | some r => if 0 < r.emRaw then some r.emRaw else none
  | none => none

/-- Anchoring step: when the trusted base value (`apa_emissions`) and the
raw base value are both positive, `scale_factor = trusted / raw` rescales
every year's emissions and production (rounded to 3 decimals, as in the
source); otherwise the raw series is emitted unscaled with
`scale_factor = 1` and the trajectory flagged unanchored
(`apa_anchored = False`).  Returns (series, scale_factor, anchored). -/
def anchorTrajectory (rows : List AnnualRow) (baseYear : Int)
    (apaEmissions : Option ℚ) : List (Int × ℚ × ℚ) × ℚ × Bool :=
  match apaEmissions, rawBaseValue rows baseYear with
  | some a, some g =>
    if 0 < a ∧ 0 < g then
      let sf := a / g
      (rows.map (fun r => (r.year, pyRound 3 (r.emRaw * sf), pyRound 3 (r.prodRaw * sf))),
       sf, true)
    else
      (rows.map (fun r => (r.year, pyRound 3 r.emRaw, pyRound 3 r.prodRaw)), 1, false)
  | _, _ =>
    (rows.map (fun r => (r.year, pyRound 3 r.emRaw, pyRound 3 r.prodRaw)), 1, false)

/-! ### Multi-source reconciliation (`load_production_data`,
apa_calculator.py lines 1183-1251, and the exclusion list of
`load_annual_report_production`, lines 942-980) -/

/-- One upstream production measurement before source tagging. -/
structure RawObs where
  company : String
  year : Int
  value : ℚ
  deriving DecidableEq, Repr

/-- A production observation with its source tag and priority rank. -/
structure Obs where
  company : String
  year : Int
  value : ℚ
  source : String
  priority : Nat
  deriving DecidableEq, Repr

/-- The known-bad extraction exclusion list of
`load_annual_report_production` (lines 963-968). -/
def badExtractions : List (String × Int) :=
  [("JFE Holdings", 2015), ("JFE Holdings", 2016),
   ("JFE Holdings", 2017), ("Nippon Steel", 2024)]

/-- `load_annual_report_production`: drop every row matching an entry of
the exclusion list (exact company+year match inside the annual-report
source), one filter per entry as in the source loop. -/
def loadAnnualReportProduction (raw : List RawObs) : List RawObs :=
  badExtractions.foldl
    (fun acc cy =>
      acc.filter (fun o => !(decide (o.company = cy.1) && decide (o.year = cy.2))))
    raw

/-- Tag a raw observation with its source name and priority rank. -/
def mkObs (source : String) (priority : Nat) (o : RawObs) : Obs :=
  ⟨o.company, o.year, o.value, source, priority⟩

/-- `load_production_data`: concatenate the five sources with their fixed
priorities (0 = bau_reported ... 4 = gem_plant_level); the annual-report
source is filtered through the exclusion list before tagging. -/
def loadProductionData (bau ar curated ald gem : List RawObs) : List Obs :=
  bau.map (mkObs "bau_reported" 0)
    ++ (loadAnnualReportProduction ar).map (mkObs "annual_report" 1)
    ++ curated.map (mkObs "curated_reports" 2)
    ++ ald.map (mkObs "kampmann_ald" 3)
    ++ gem.map (mkObs "gem_plant_level" 4)

/-- Keep the better-ranked of two candidates (lower priority wins; the
earlier candidate is kept on ties). -/
def pickBetter (acc : Option Obs) (o : Obs) : Option Obs :=
  match acc with
  | none => some o
  | some b => if o.priority < b.priority then some o else some b

/-- An observation of minimal priority rank in a list. -/
def selectMin (l : List Obs) : Option Obs := l.foldl pickBetter none

/-- `sort_values("_priority")` + `drop_duplicates(["company","year"],
keep="first")` restricted to one (company, year) key: the candidate kept
for that key is one of minimal priority among the key's candidates. -/
def reconcile (obs : List Obs) (c : String) (y : Int) : Option Obs :=
  selectMin (obs.filter (fun o => decide (o.company = c) && decide (o.year = y)))

/-! ## Theorems -/

/-- C10: For every company, the calibrated utilization rate — computed
identically in `generate_company_tp` and `generate_company_bau` and embedded
once as `calibrateUR` — lies in the closed interval [0.40, 1.0]: the
output-over-capacity ratio is clipped to that interval and the default 0.80
used otherwise is inside it. -/
theorem C10_calibrated_ur_band (cap : ℚ) (p : Option ℚ) :
    2/5 ≤ calibrateUR cap p ∧ calibrateUR cap p ≤ 1 := by
  cases p with
  | none => exact ⟨by norm_num [calibrateUR], by norm_num [calibrateUR]⟩
  | some q =>
    simp only [calibrateUR]
    split
    · exact ⟨le_max_left _ _, max_le (by norm_num) (min_le_right _ _)⟩
    · exact ⟨by norm_num, by norm_num⟩

/-- C4: a unit whose lifecycle status is "cancelled" is never in the
active-unit set, for every year, every close-year assignment (which covers
both the planned-transition and the no-closure policy), and under the
historical year filter `get_plants_for_year`. -/
theorem C4_cancelled_never_active :
    (∀ (u : GemUnit) (year : Int) (closeYear : Option Int),
       u.status = .cancelled → unitIsActive u year closeYear = false)
    ∧ (∀ (p : GemPlant) (year : Int),
       p.status = .cancelled → plantActiveInYear p year = false) := by
  constructor
  · intro u year closeYear h
    simp [unitIsActive, h]
  · intro p year h
    simp [plantActiveInYear, h]

/-- C4 witness: a concrete cancelled unit and plant are inactive. -/
theorem C4_cancelled_never_active_witness :
    unitIsActive ⟨.cancelled, some 2000, none, none, "A", 100⟩ 2024 none = false
    ∧ plantActiveInYear ⟨.cancelled, some 2000, "A", 100, 1⟩ 2024 = false :=
  ⟨C4_cancelled_never_active.1 ⟨.cancelled, some 2000, none, none, "A", 100⟩ 2024 none rfl,
   C4_cancelled_never_active.2 ⟨.cancelled, some 2000, "A", 100, 1⟩ 2024 rfl⟩

/-- C5: a unit active under the planned-transition policy in year Y is also
active under the no-closure policy in Y (the no-closure active set is a
superset), and scheduled additions — construction or announced units —
are active under the two policies in exactly the same years. -/
theorem C5_policy_superset :
    (∀ (u : GemUnit) (year : Int), tpActive u year = true → bauActive u year = true)
    ∧ (∀ (u : GemUnit) (year : Int),
        u.status = .construction ∨ u.status = .announced →
        tpActive u year = bauActive u year) := by
  constructor
  · intro u year h
    simp only [tpActive, bauActive, policyActive, planCloseYear, if_pos, if_neg,
      Bool.if_true_left, unitIsActive, Bool.and_eq_true] at h ⊢
    exact ⟨h.1, rfl⟩
  · intro u year h
    have hclose : inferCloseYear u = none := by
      rcases h with h | h <;> simp [inferCloseYear, h]
    simp [tpActive, bauActive, policyActive, planCloseYear, hclose]

/-- C5 witness: a concrete operating unit active under planned transition is
active under no-closure, and a concrete construction unit behaves
identically under both policies. -/
theorem C5_policy_superset_witness :
    bauActive ⟨.operating, some 2000, none, none, "A", 100⟩ 2024 = true
    ∧ tpActive ⟨.construction, some 2026, none, none, "A", 100⟩ 2024
      = bauActive ⟨.construction, some 2026, none, none, "A", 100⟩ 2024 :=
  ⟨C5_policy_superset.1 ⟨.operating, some 2000, none, none, "A", 100⟩ 2024 (by decide),
   C5_policy_superset.2 ⟨.construction, some 2026, none, none, "A", 100⟩ 2024 (Or.inl rfl)⟩

/-- C7 counterexample: a retired unit with no explicit retirement date but
with a pre-retirement announcement year 2020.  The claim predicts an
inferred close year of 2020 + 5 = 2025; the code instead returns the fixed
fallback 2023 (`_infer_close_year`) resp. 2024 (`build_closure_inventory`),
ignoring the announcement year for retired/mothballed units. -/
theorem C7_close_year_imputation_counterexample :
    inferCloseYear ⟨.retired, some 1990, none, some 2020, "A", 1000⟩ ≠ some (2020 + 5)
    ∧ inventoryCloseYear ⟨.retired, some 1990, none, some 2020, "A", 1000⟩ ≠ some (2020 + 5)
    ∧ inferCloseYear ⟨.retired, some 1990, none, some 2020, "A", 1000⟩ = some 2023
    ∧ inventoryCloseYear ⟨.retired, some 1990, none, some 2020, "A", 1000⟩ = some 2024 := by
  refine ⟨by decide, by decide, by decide, by decide⟩

/-- C7 amended: a retired or mothballed unit with no explicit retirement
date gets the fixed documented fallback year (2023 in the TP generator,
2024 in the closure inventory), regardless of any announcement year; the
"announcement + 5, else fallback 2030" imputation applies instead to
operating pre-retirement units without a retirement date. -/
theorem C7_close_year_imputation_amended :
    (∀ u : GemUnit, u.status = .retired ∨ u.status = .mothballed →
       u.retiredYear = none →
       inferCloseYear u = some 2023 ∧ inventoryCloseYear u = some 2024)
    ∧ (∀ u : GemUnit, u.status = .operatingPreRetirement →
       u.retiredYear = none →
       inferCloseYear u =
         (match u.preRetirementAnnouncedYear with
          | some a => some (a + 5)
          | none => some 2030)
       ∧ inventoryCloseYear u =
         (match u.preRetirementAnnouncedYear with
          | some a => some (a + 5)
          | none => some 2030)) := by
  constructor
  · intro u h hr
    rcases h with h | h <;>
      exact ⟨by simp [inferCloseYear, h, hr], by simp [inventoryCloseYear, h, hr]⟩
  · intro u h hr
    exact ⟨by simp [inferCloseYear, h, hr], by simp [inventoryCloseYear, h, hr]⟩

/-- C7 witness: concrete mothballed and pre-retirement units without
retirement dates get their close years from the amended rules. -/
theorem C7_close_year_imputation_witness :
    (inferCloseYear ⟨.mothballed, some 1990, none, none, "A", 100⟩ = some 2023
      ∧ inventoryCloseYear ⟨.mothballed, some 1990, none, none, "A", 100⟩ = some 2024)
    ∧ (inferCloseYear ⟨.operatingPreRetirement, some 1990, none, some 2021, "A", 100⟩
        = some (2021 + 5)
      ∧ inventoryCloseYear ⟨.operatingPreRetirement, some 1990, none, some 2021, "A", 100⟩
        = some (2021 + 5)) :=
  ⟨C7_close_year_imputation_amended.1 _ (Or.inr rfl) rfl,
   C7_close_year_imputation_amended.2 ⟨.operatingPreRetirement, some 1990, none, some 2021, "A", 100⟩ rfl rfl⟩

/-- C8: announced units are excluded from the strict policy's active set
(`get_plants_for_year`) for every year, and are included under the relaxed
policy (`_unit_is_active`, used by both projection modes) as soon as their
start year is reached. -/
theorem C8_announced_policy :
    (∀ (p : GemPlant) (year : Int),
       p.status = .announced → plantActiveInYear p year = false)
    ∧ (∀ (u : GemUnit) (year s : Int),
       u.status = .announced → u.startYear = some s → s ≤ year →
       tpActive u year = true ∧ bauActive u year = true) := by
  constructor
  · intro p year h
    simp [plantActiveInYear, h]
  · intro u year s h hs hle
    have hclose : inferCloseYear u = none := by simp [inferCloseYear, h]
    have hstart : decide (year < s) = false := by
      simp [not_lt.mpr hle]
    constructor <;>
      simp [tpActive, bauActive, policyActive, planCloseYear, unitIsActive,
        hclose, h, hs, hstart]

/-- C8 witness: a concrete announced unit started by 2030 is active under
the relaxed policy while the strict filter excludes it. -/
theorem C8_announced_policy_witness :
    plantActiveInYear ⟨.announced, some 2026, "A", 100, 1⟩ 2030 = false
    ∧ tpActive ⟨.announced, some 2026, none, none, "A", 100⟩ 2030 = true := by
  refine ⟨C8_announced_policy.1 ⟨.announced, some 2026, "A", 100, 1⟩ 2030 rfl, ?_⟩
  exact (C8_announced_policy.2 ⟨.announced, some 2026, none, none, "A", 100⟩ 2030 2026 rfl rfl
    (by decide)).1

/-- The raw base value is positive whenever present, by construction. -/
lemma rawBaseValue_pos {rows : List AnnualRow} {b : Int} {g : ℚ}
    (h : rawBaseValue rows b = some g) : 0 < g := by
  unfold rawBaseValue at h
  rcases hf : rows.find? (fun r => decide (r.year = b)) with _ | r
  · rw [hf] at h; exact absurd h (by simp)
  · rw [hf] at h
    have h2 : (if 0 < r.emRaw then (some r.emRaw : Option ℚ) else none) = some g := h
    by_cases hp : 0 < r.emRaw
    · rw [if_pos hp] at h2
      simp only [Option.some.injEq] at h2
      exact h2 ▸ hp
    · rw [if_neg hp] at h2; exact absurd h2 (by simp)

/-- C2: anchoring.  When a trusted base value and the raw base value are
both positive, the scale factor is trusted / raw and every year's emissions
and production are rescaled by it; when no trusted base value exists the
scale factor is 1 and the trajectory is flagged unanchored; consequently
when the trusted base value equals the raw base value the anchored series
coincides with the unanchored (raw) series for every year. -/
theorem C2_anchoring_scale_consistent :
    (∀ (rows : List AnnualRow) (baseYear : Int) (a g : ℚ),
       rawBaseValue rows baseYear = some g → 0 < a →
       anchorTrajectory rows baseYear (some a) =
         (rows.map (fun r =>
            (r.year, pyRound 3 (r.emRaw * (a / g)), pyRound 3 (r.prodRaw * (a / g)))),
          a / g, true))
    ∧ (∀ (rows : List AnnualRow) (baseYear : Int),
       anchorTrajectory rows baseYear none =
         (rows.map (fun r => (r.year, pyRound 3 r.emRaw, pyRound 3 r.prodRaw)), 1, false))
    ∧ (∀ (rows : List AnnualRow) (baseYear : Int) (g : ℚ),
       rawBaseValue rows baseYear = some g →
       (anchorTrajectory rows baseYear (some g)).1
         = (anchorTrajectory rows baseYear none).1) := by
  refine ⟨?_, ?_, ?_⟩
  · intro rows baseYear a g hg ha
    have hgpos := rawBaseValue_pos hg
    simp only [anchorTrajectory, hg]
    rw [if_pos ⟨ha, hgpos⟩]
  · intro rows baseYear
    rcases h : rawBaseValue rows baseYear <;> simp [anchorTrajectory, h]
  · intro rows baseYear g hg
    have hgpos := rawBaseValue_pos hg
    simp only [anchorTrajectory, hg]
    rw [if_pos ⟨hgpos, hgpos⟩, div_self (ne_of_gt hgpos)]
    simp

/-- C2 witness: one concrete row anchored with trusted value 20 against raw
base 10 is scaled by 2. -/
theorem C2_anchoring_scale_consistent_witness :
    anchorTrajectory [⟨2024, 10, 5⟩] 2024 (some 20) =
      ([((2024 : Int), pyRound 3 ((10 : ℚ) * (20 / 10)), pyRound 3 ((5 : ℚ) * (20 / 10)))],
       20 / 10, true)
    ∧ (anchorTrajectory [⟨2024, 10, 5⟩] 2024 (some 10)).1
      = (anchorTrajectory [⟨2024, 10, 5⟩] 2024 none).1 :=
  ⟨C2_anchoring_scale_consistent.1 [⟨2024, 10, 5⟩] 2024 20 10 (by decide) (by decide),
   C2_anchoring_scale_consistent.2.2 [⟨2024, 10, 5⟩] 2024 10 (by decide)⟩

/-- C6: with an empty matched plant set or nonpositive total active
capacity, `calculate_company_emissions` returns the explicit "no data"
result `none` (never coercing to zero output), and whenever it does return
a result the total capacity — the divisor of the utilization rate — is
strictly positive, so no division-by-zero can occur. -/
theorem C6_no_data_guard (ps : List GemPlant) (production : ℚ)
    (cps : Option (List (String × ℚ))) :
    (ps = [] ∨ totalCapMt ps ≤ 0 →
       calculateCompanyEmissions ps production cps = none)
    ∧ (¬(ps = [] ∨ totalCapMt ps ≤ 0) →
       0 < totalCapMt ps ∧ calculateCompanyEmissions ps production cps ≠ none) := by
  constructor
  · rintro (rfl | hcap)
    · rfl
    · unfold calculateCompanyEmissions
      split
      · rfl
      · rw [if_pos hcap]
  · intro h
    push_neg at h
    obtain ⟨hne, hcap⟩ := h
    refine ⟨hcap, ?_⟩
    unfold calculateCompanyEmissions
    rw [if_neg (by simpa [List.isEmpty_iff] using hne), if_neg (not_le.mpr hcap)]
    simp

/-- C6 witness: an empty plant set yields the explicit "no data" result,
and a concrete one-plant set with positive capacity yields a result with a
positive utilization divisor. -/
theorem C6_no_data_guard_witness :
    calculateCompanyEmissions [] 1 none = none
    ∧ (0 < totalCapMt [⟨.operating, some 2000, "X", 10000, 2⟩]
       ∧ calculateCompanyEmissions [⟨.operating, some 2000, "X", 10000, 2⟩] 9 none ≠ none) :=
  ⟨(C6_no_data_guard [] 1 none).1 (Or.inl rfl),
   (C6_no_data_guard [⟨.operating, some 2000, "X", 10000, 2⟩] 9 none).2
     (by
       rintro (h | h)
       · exact absurd h (by simp)
       · norm_num [totalCapMt] at h)⟩

/-- Every utilization sample collected by the calibration step lies inside
the sanity band, by construction of the filter. -/
lemma mem_urSamples_band {allPlants : List GemPlant} {prodRows : List (Int × ℚ)}
    {s : Int × ℚ} (h : s ∈ urSamples allPlants prodRows) :
    1/10 ≤ s.2 ∧ s.2 ≤ 3/2 := by
  unfold urSamples at h
  rcases List.mem_filterMap.mp h with ⟨row, _, hrow⟩
  dsimp only at hrow
  by_cases hcap :
      0 < ((getPlantsForYear allPlants row.1).map (·.capacityTtpa)).sum / 1000
  · rw [if_pos hcap] at hrow
    by_cases hband :
        1/10 ≤ row.2 / (((getPlantsForYear allPlants row.1).map (·.capacityTtpa)).sum / 1000)
        ∧ row.2 / (((getPlantsForYear allPlants row.1).map (·.capacityTtpa)).sum / 1000) ≤ 3/2
    · rw [if_pos hband] at hrow
      cases hrow
      exact hband
    · rw [if_neg hband] at hrow
      exact absurd hrow (by simp)
  · rw [if_neg hcap] at hrow
    exact absurd hrow (by simp)

/-- The mean of a nonempty list of rationals inside a closed interval lies
inside the interval. -/
lemma sum_div_length_band {l : List ℚ} {lo hi : ℚ} (hne : l ≠ [])
    (h : ∀ x ∈ l, lo ≤ x ∧ x ≤ hi) :
    lo ≤ l.sum / l.length ∧ l.sum / l.length ≤ hi := by
  have hlen : 0 < (l.length : ℚ) := by
    have : 0 < l.length := List.length_pos.mpr hne
    exact_mod_cast this
  constructor
  · rw [le_div_iff₀ hlen]
    have := List.card_nsmul_le_sum l lo (fun x hx => (h x hx).1)
    rw [nsmul_eq_mul] at this
    linarith
  · rw [div_le_iff₀ hlen]
    have := List.sum_le_card_nsmul l hi (fun x hx => (h x hx).2)
    rw [nsmul_eq_mul] at this
    linarith

/-- C9 counterexample: a concrete company-year whose utilization rate is 2
(production 2 Mt against 1 Mt of capacity).  `calculate_company_emissions`
does produce a result for it, but `run_apa_all` drops the record from the
reported results instead of merely flagging it, contradicting the claim
that an out-of-band figure at final reporting is flagged but not dropped. -/
theorem C9_plausibility_counterexample :
    calculateCompanyEmissions [⟨.operating, some 2000, "X", 1000, 2⟩] 2 none ≠ none
    ∧ apaReportRows [([⟨.operating, some 2000, "X", 1000, 2⟩], 2, none)] = [] := by
  have hcap : totalCapMt [⟨.operating, some 2000, "X", 1000, 2⟩] = 1 := by
    norm_num [totalCapMt]
  have hcalc : calculateCompanyEmissions [⟨.operating, some 2000, "X", 1000, 2⟩] 2 none
      = some ⟨1, 2, [2], 4, 2, 1⟩ := by
    unfold calculateCompanyEmissions
    rw [if_neg (by simp), if_neg (by rw [hcap]; norm_num)]
    norm_num [hcap, uniformAllocation, GemPlant.capMt, totalCapMt,
      pyRound, roundHalfEven]
  constructor
  · rw [hcalc]; simp
  · unfold apaReportRows
    rw [List.foldr_cons, List.foldr_nil, hcalc]
    norm_num

/-- C9 amended: a utilization sample outside the sanity band [0.1, 1.5] is
excluded from calibration averaging (so the calibrated utilization, when
defined, lies inside the band), but at final reporting a company-year whose
utilization rate exceeds 1.5 is dropped from the reported APA results (with
a warning), not merely flagged: every reported record satisfies
utilization_rate ≤ 1.5. -/
theorem C9_plausibility_amended :
    (∀ (allPlants : List GemPlant) (prodRows : List (Int × ℚ)) (s : Int × ℚ),
       s ∈ urSamples allPlants prodRows → 1/10 ≤ s.2 ∧ s.2 ≤ 3/2)
    ∧ (∀ (allPlants : List GemPlant) (prodRows : List (Int × ℚ)) (u : ℚ),
       calibratedURFromSamples (urSamples allPlants prodRows) = some u →
       1/10 ≤ u ∧ u ≤ 3/2)
    ∧ (∀ (inputs : List (List GemPlant × ℚ × Option (List (String × ℚ))))
         (r : ApaResult), r ∈ apaReportRows inputs →
       r.utilizationRate ≤ 3/2) := by
  refine ⟨fun _ _ _ h => mem_urSamples_band h, ?_, ?_⟩
  · intro allPlants prodRows u h
    unfold calibratedURFromSamples at h
    set samples := urSamples allPlants prodRows with hsamp
    by_cases hne : samples.isEmpty
    · rw [if_pos hne] at h
      exact absurd h (by simp)
    · rw [if_neg hne] at h
      simp only [Option.some.injEq] at h
      set earliest := (List.insertionSort (fun a b => a.1 ≤ b.1) samples).take 3 with he
      have hsub : ∀ x ∈ earliest, x ∈ samples := by
        intro x hx
        have hx2 := List.take_subset 3 _ hx
        exact (List.mem_insertionSort _).mp hx2
      have hband : ∀ x ∈ earliest.map (·.2), 1/10 ≤ x ∧ x ≤ 3/2 := by
        intro x hx
        rcases List.mem_map.mp hx with ⟨p, hp, rfl⟩
        exact mem_urSamples_band (hsamp ▸ hsub p hp)
      have hnonnil : earliest.map (·.2) ≠ [] := by
        have h1 : samples ≠ [] := by
          intro hc; rw [hc] at hne; exact hne rfl
        rw [he]
        rcases hl : List.insertionSort (fun a b => a.1 ≤ b.1) samples with _ | ⟨a, t⟩
        · have hperm := List.perm_insertionSort (fun a b => a.1 ≤ b.1) samples
          rw [hl] at hperm
          exact absurd (List.Perm.eq_nil hperm.symm) h1
        · rw [hl]; simp
      have hmean := sum_div_length_band hnonnil hband
      rw [List.length_map] at hmean
      exact h ▸ hmean
  · intro inputs r h
    induction inputs with
    | nil => exact absurd h (by simp [apaReportRows])
    | cons i t ih =>
      rcases hc : calculateCompanyEmissions i.1 i.2.1 i.2.2 with _ | q
      · have h2 : r ∈ apaReportRows t := by
          unfold apaReportRows at h ⊢
          rw [List.foldr_cons, hc] at h
          exact h
        exact ih h2
      · have h2 : r ∈ (if (3/2 : ℚ) < q.utilizationRate
            then apaReportRows t else q :: apaReportRows t) := by
          unfold apaReportRows at h ⊢
          rw [List.foldr_cons, hc] at h
          exact h
        by_cases hur : (3/2 : ℚ) < q.utilizationRate
        · rw [if_pos hur] at h2
          exact ih h2
        · rw [if_neg hur] at h2
          rcases List.mem_cons.mp h2 with rfl | h3
          · exact le_of_not_lt hur
          · exact ih h3

/-- C9 witness: a concrete in-band sample (utilization 0.9) is collected
and averaged, and a concrete reported record has utilization within the
band. -/
theorem C9_plausibility_amended_witness :
    ((1:ℚ)/10 ≤ 9/10 ∧ (9:ℚ)/10 ≤ 3/2)
    ∧ ((1:ℚ)/10 ≤ 9/10 ∧ (9:ℚ)/10 ≤ 3/2)
    ∧ ApaResult.utilizationRate ⟨10, 9/10, [9], 18, 2, 1⟩ ≤ 3/2 := by
  have hsamples : urSamples [⟨.operating, some 2000, "X", 10000, 2⟩] [(2015, 9)]
      = [(2015, 9/10)] := by
    norm_num [urSamples, getPlantsForYear, plantActiveInYear, plantStarted,
      List.filterMap]
  have hcalc : calculateCompanyEmissions [⟨.operating, some 2000, "X", 10000, 2⟩] 9 none
      = some ⟨10, 9/10, [9], 18, 2, 1⟩ := by
    unfold calculateCompanyEmissions
    rw [if_neg (by simp), if_neg (by norm_num [totalCapMt])]
    norm_num [uniformAllocation, GemPlant.capMt, totalCapMt, pyRound, roundHalfEven]
  refine ⟨?_, ?_, ?_⟩
  · exact C9_plausibility_amended.1 [⟨.operating, some 2000, "X", 10000, 2⟩] [(2015, 9)]
      (2015, 9/10) (by rw [hsamples]; simp)
  · exact C9_plausibility_amended.2.1 [⟨.operating, some 2000, "X", 10000, 2⟩] [(2015, 9)]
      (9/10) (by rw [hsamples]; norm_num [calibratedURFromSamples, List.insertionSort,
        List.orderedInsert])
  · exact C9_plausibility_amended.2.2 [([⟨.operating, some 2000, "X", 10000, 2⟩], 9, none)]
      ⟨10, 9/10, [9], 18, 2, 1⟩
      (by unfold apaReportRows
          rw [List.foldr_cons, List.foldr_nil, hcalc]
          norm_num)

/-- A fold of `pickBetter` returning an observation returns the accumulator
or a member of the list. -/
lemma foldl_pickBetter_mem : ∀ (l : List Obs) (acc : Option Obs) (o : Obs),
    l.foldl pickBetter acc = some o → acc = some o ∨ o ∈ l := by
  intro l
  induction l with
  | nil => intro acc o h; exact Or.inl h
  | cons x t ih =>
    intro acc o h
    rw [List.foldl_cons] at h
    rcases ih (pickBetter acc x) o h with h1 | h1
    · cases acc with
      | none =>
        have h2 : (some x : Option Obs) = some o := h1
        simp only [Option.some.injEq] at h2
        subst h2
        exact Or.inr (List.mem_cons_self x t)
      | some b =>
        have h2 : (if x.priority < b.priority then some x else some b) = some o := h1
        by_cases hp : x.priority < b.priority
        · rw [if_pos hp] at h2
          simp only [Option.some.injEq] at h2
          subst h2
          exact Or.inr (List.mem_cons_self x t)
        · rw [if_neg hp] at h2
          exact Or.inl h2
    · exact Or.inr (List.mem_cons_of_mem x h1)

/-- A fold of `pickBetter` returns an observation of minimal priority among
the accumulator and the list. -/
lemma foldl_pickBetter_le : ∀ (l : List Obs) (acc : Option Obs) (o : Obs),
    l.foldl pickBetter acc = some o →
    (∀ b, acc = some b → o.priority ≤ b.priority)
    ∧ ∀ o2 ∈ l, o.priority ≤ o2.priority := by
  intro l
  induction l with
  | nil =>
    intro acc o h
    rw [List.foldl_nil] at h
    refine ⟨fun b hb => ?_, fun o2 h2 => absurd h2 (List.not_mem_nil o2)⟩
    rw [h] at hb
    simp only [Option.some.injEq] at hb
    exact hb ▸ le_rfl
  | cons x t ih =>
    intro acc o h
    rw [List.foldl_cons] at h
    obtain ⟨ha, ht⟩ := ih (pickBetter acc x) o h
    constructor
    · intro b hb
      by_cases hp : x.priority < b.priority
      · have hx := ha x (by
          rw [hb]
          show (if x.priority < b.priority then some x else some b) = some x
          rw [if_pos hp])
        exact le_of_lt (lt_of_le_of_lt hx hp)
      · exact ha b (by
          rw [hb]
          show (if x.priority < b.priority then some x else some b) = some b
          rw [if_neg hp])
    · intro o2 h2
      rcases List.mem_cons.mp h2 with rfl | h2
      · cases acc with
        | none => exact ha o2 rfl
        | some b =>
          by_cases hp : o2.priority < b.priority
          · exact ha o2 (by
              show (if o2.priority < b.priority then some o2 else some b) = some o2
              rw [if_pos hp])
          · have hob := ha b (by
              show (if o2.priority < b.priority then some o2 else some b) = some b
              rw [if_neg hp])
            exact hob.trans (le_of_not_lt hp)
      · exact ht o2 h2

/-- `selectMin` returns a member of minimal priority. -/
lemma selectMin_spec {l : List Obs} {o : Obs} (h : selectMin l = some o) :
    o ∈ l ∧ ∀ o2 ∈ l, o.priority ≤ o2.priority := by
  constructor
  · rcases foldl_pickBetter_mem l none o h with h1 | h1
    · exact absurd h1 (by simp)
    · exact h1
  · exact (foldl_pickBetter_le l none o h).2

/-- An observation surviving the sequential exclusion filters was in the
input and matches no exclusion entry. -/
lemma mem_badFold : ∀ (bad : List (String × Int)) (acc : List RawObs) (o : RawObs),
    o ∈ bad.foldl (fun acc cy =>
      acc.filter (fun o => !(decide (o.company = cy.1) && decide (o.year = cy.2)))) acc →
    o ∈ acc ∧ ∀ cy ∈ bad, ¬(o.company = cy.1 ∧ o.year = cy.2) := by
  intro bad
  induction bad with
  | nil => intro acc o h; exact ⟨h, by simp⟩
  | cons cy t ih =>
    intro acc o h
    rw [List.foldl_cons] at h
    obtain ⟨hmem, ht⟩ := ih _ o h
    have hf := List.mem_filter.mp hmem
    refine ⟨hf.1, ?_⟩
    intro cy2 hcy2
    rcases List.mem_cons.mp hcy2 with rfl | hcy2
    · rintro ⟨hc, hy⟩
      have hb := hf.2
      simp [hc, hy] at hb
    · exact ht cy2 hcy2

/-- Every observation of the merged production list carrying the
annual-report source tag matches no exclusion entry: the exclusion list
removed the candidates before the ranking step. -/
lemma loadProductionData_ar_excluded :
    ∀ (bau ar curated ald gem : List RawObs) (o : Obs),
    o ∈ loadProductionData bau ar curated ald gem →
    o.source = "annual_report" →
    ∀ cy ∈ badExtractions, ¬(o.company = cy.1 ∧ o.year = cy.2) := by
  intro bau ar curated ald gem o h hsrc
  unfold loadProductionData at h
  simp only [List.mem_append, List.mem_map] at h
  rcases h with ((((h | h) | h) | h) | h)
  · obtain ⟨r, _, rfl⟩ := h
    simp [mkObs] at hsrc
  · obtain ⟨r, hr, rfl⟩ := h
    intro cy hcy hcontra
    exact (mem_badFold badExtractions ar r hr).2 cy hcy hcontra
  · obtain ⟨r, _, rfl⟩ := h
    simp [mkObs] at hsrc
  · obtain ⟨r, _, rfl⟩ := h
    simp [mkObs] at hsrc
  · obtain ⟨r, _, rfl⟩ := h
    simp [mkObs] at hsrc

/-- C3: for every (entity, year) key, the reconciled observation is one of
the merged candidates for that key, has minimal (best) priority rank among
all non-excluded candidates for the key, and is never an excluded
annual-report observation (the exclusion list removes those before
ranking). -/
theorem C3_reconciliation_best_rank :
    ∀ (bau ar curated ald gem : List RawObs) (c : String) (y : Int) (o : Obs),
    reconcile (loadProductionData bau ar curated ald gem) c y = some o →
    o ∈ loadProductionData bau ar curated ald gem
    ∧ o.company = c ∧ o.year = y
    ∧ (∀ o2 ∈ loadProductionData bau ar curated ald gem,
        o2.company = c → o2.year = y → o.priority ≤ o2.priority)
    ∧ ¬(o.source = "annual_report" ∧ (o.company, o.year) ∈ badExtractions) := by
  intro bau ar curated ald gem c y o h
  unfold reconcile at h
  obtain ⟨hmem, hmin⟩ := selectMin_spec h
  have hf := List.mem_filter.mp hmem
  have hkey : o.company = c ∧ o.year = y := by
    have h2 := hf.2
    simp only [Bool.and_eq_true, decide_eq_true_eq] at h2
    exact h2
  refine ⟨hf.1, hkey.1, hkey.2, ?_, ?_⟩
  · intro o2 h2 hc hy
    exact hmin o2 (List.mem_filter.mpr ⟨h2, by simp [hc, hy]⟩)
  · rintro ⟨hsrc, hbad⟩
    exact loadProductionData_ar_excluded bau ar curated ald gem o hf.1 hsrc
      (o.company, o.year) hbad ⟨rfl, rfl⟩

/-- C3 witness: with an annual-report observation (rank 1) and a curated
observation (rank 2) for ("A", 2020), and an excluded ("JFE Holdings",
2015) annual-report row in the input, reconciliation selects the rank-1
annual-report observation. -/
theorem C3_reconciliation_best_rank_witness :
    (⟨"A", 2020, 12, "annual_report", 1⟩ : Obs)
      ∈ loadProductionData [] [⟨"JFE Holdings", 2015, 100⟩, ⟨"A", 2020, 12⟩]
          [⟨"A", 2020, 11⟩] [] []
    ∧ (⟨"A", 2020, 12, "annual_report", 1⟩ : Obs).company = "A"
    ∧ (⟨"A", 2020, 12, "annual_report", 1⟩ : Obs).year = 2020
    ∧ (∀ o2 ∈ loadProductionData [] [⟨"JFE Holdings", 2015, 100⟩, ⟨"A", 2020, 12⟩]
          [⟨"A", 2020, 11⟩] [] [],
        o2.company = "A" → o2.year = 2020 →
        (⟨"A", 2020, 12, "annual_report", 1⟩ : Obs).priority ≤ o2.priority)
    ∧ ¬((⟨"A", 2020, 12, "annual_report", 1⟩ : Obs).source = "annual_report"
        ∧ ((⟨"A", 2020, 12, "annual_report", 1⟩ : Obs).company,
           (⟨"A", 2020, 12, "annual_report", 1⟩ : Obs).year) ∈ badExtractions) :=
  C3_reconciliation_best_rank [] [⟨"JFE Holdings", 2015, 100⟩, ⟨"A", 2020, 12⟩]
    [⟨"A", 2020, 11⟩] [] [] "A" 2020 ⟨"A", 2020, 12, "annual_report", 1⟩ (by decide)

/-- Sum of the allocation series over a cons cell. -/
lemma sumAlloc_cons (s : Slot) (t : List Slot) :
    sumAlloc (s :: t) = s.alloc + sumAlloc t := by
  simp [sumAlloc]

/-- Country capacity over a cons cell. -/
lemma countryCapMt_cons (c : String) (s : Slot) (t : List Slot) :
    countryCapMt c (s :: t)
      = (if s.plant.country = c then s.plant.capMt else 0) + countryCapMt c t := by
  by_cases h : s.plant.country = c <;> simp [countryCapMt, List.filter_cons, h]

/-- Unmatched capacity over a cons cell. -/
lemma unmCapMt_cons (s : Slot) (t : List Slot) :
    unmCapMt (s :: t) = (if s.unm then s.plant.capMt else 0) + unmCapMt t := by
  by_cases h : s.unm <;> simp [unmCapMt, List.filter_cons, h]

/-- Overwriting the allocation of one country's slots (whose previous
allocation is zero) adds that country's capacity times the rate. -/
lemma sumAlloc_assign (c : String) (v : ℚ) :
    ∀ slots : List Slot, (∀ s ∈ slots, s.plant.country = c → s.alloc = 0) →
    sumAlloc (slots.map (fun s =>
      if s.plant.country = c then ⟨s.plant, s.plant.capMt * v, false⟩ else s))
      = sumAlloc slots + countryCapMt c slots * v := by
  intro slots
  induction slots with
  | nil => intro _; simp [sumAlloc, countryCapMt]
  | cons s t ih =>
    intro h0
    rw [List.map_cons, sumAlloc_cons, sumAlloc_cons, countryCapMt_cons,
      ih (fun x hx hc => h0 x (List.mem_cons_of_mem s hx) hc)]
    by_cases hc : s.plant.country = c
    · rw [if_pos hc, if_pos hc]
      have hs0 : s.alloc = 0 := h0 s (List.mem_cons_self s t) hc
      show s.plant.capMt * v + (sumAlloc t + countryCapMt c t * v)
        = s.alloc + sumAlloc t + (s.plant.capMt + countryCapMt c t) * v
      rw [hs0]; ring
    · rw [if_neg hc, if_neg hc]
      show s.alloc + (sumAlloc t + countryCapMt c t * v)
        = s.alloc + sumAlloc t + (0 + countryCapMt c t) * v
      ring

/-- Spreading a rate over the unmatched slots (whose previous allocation is
zero) adds the unmatched capacity times the rate. -/
lemma sumAlloc_spread (v : ℚ) :
    ∀ slots : List Slot, (∀ s ∈ slots, s.unm = true → s.alloc = 0) →
    sumAlloc (slots.map (fun s =>
      if s.unm then ⟨s.plant, s.plant.capMt * v, s.unm⟩ else s))
      = sumAlloc slots + unmCapMt slots * v := by
  intro slots
  induction slots with
  | nil => intro _; simp [sumAlloc, unmCapMt]
  | cons s t ih =>
    intro h0
    rw [List.map_cons, sumAlloc_cons, sumAlloc_cons, unmCapMt_cons,
      ih (fun x hx hu => h0 x (List.mem_cons_of_mem s hx) hu)]
    by_cases hu : s.unm
    · rw [if_pos hu, if_pos hu]
      have hs0 : s.alloc = 0 := h0 s (List.mem_cons_self s t) hu
      show s.plant.capMt * v + (sumAlloc t + unmCapMt t * v)
        = s.alloc + sumAlloc t + (s.plant.capMt + unmCapMt t) * v
      rw [hs0]; ring
    · rw [if_neg hu, if_neg hu]
      show s.alloc + (sumAlloc t + unmCapMt t * v)
        = s.alloc + sumAlloc t + (0 + unmCapMt t) * v
      ring

/-- The initial allocation series sums to zero. -/
lemma sumAlloc_initSlots (ps : List GemPlant) : sumAlloc (initSlots ps) = 0 := by
  induction ps with
  | nil => rfl
  | cons p t ih =>
    rw [initSlots, List.map_cons, sumAlloc_cons]
    rw [show List.map (fun p => (⟨p, 0, true⟩ : Slot)) t = initSlots t from rfl, ih]
    show (0 : ℚ) + 0 = 0
    ring

/-- Positive unmatched capacity implies some slot is unmatched. -/
lemma any_unm_of_capPos {slots : List Slot} (h : 0 < unmCapMt slots) :
    slots.any (·.unm) = true := by
  cases hany : slots.any (·.unm) with
  | true => rfl
  | false =>
    exfalso
    have hall : ∀ s ∈ slots, ¬ (s.unm = true) := by simpa using hany
    have hfil : slots.filter (·.unm) = [] := List.filter_eq_nil_iff.mpr hall
    rw [unmCapMt, hfil] at h
    simp at h

/-- Invariant of the country allocation loop: with distinct country keys
and all key-country slots unallocated, the remaining production plus the
allocated sum is conserved, and unmatched slots stay unallocated. -/
lemma countryFold_invariant :
    ∀ (cps : List (String × ℚ)) (slots : List Slot) (rem : ℚ),
    (cps.map Prod.fst).Nodup →
    (∀ cp ∈ cps, ∀ s ∈ slots, s.plant.country = cp.1 → s.alloc = 0) →
    (∀ s ∈ slots, s.unm = true → s.alloc = 0) →
    (cps.foldl stepCountry (slots, rem)).2
      + sumAlloc (cps.foldl stepCountry (slots, rem)).1
      = rem + sumAlloc slots
    ∧ (∀ s ∈ (cps.foldl stepCountry (slots, rem)).1, s.unm = true → s.alloc = 0) := by
  intro cps
  induction cps with
  | nil => intro slots rem _ _ hI2; exact ⟨rfl, hI2⟩
  | cons cp t ih =>
    intro slots rem hnd hz hI2
    rw [List.foldl_cons]
    obtain ⟨hnotin, hnd2⟩ := List.nodup_cons.mp hnd
    by_cases hcond : 0 < countryCapMt cp.1 slots
        ∧ slots.any (fun s => decide (s.plant.country = cp.1))
    · have hstep : stepCountry (slots, rem) cp
          = (slots.map (fun s => if s.plant.country = cp.1
              then ⟨s.plant, s.plant.capMt * (cp.2 / countryCapMt cp.1 slots), false⟩ else s),
             rem - cp.2) := by
        show (if 0 < countryCapMt cp.1 slots
            ∧ slots.any (fun s => decide (s.plant.country = cp.1))
            then (slots.map (fun s => if s.plant.country = cp.1
              then (⟨s.plant, s.plant.capMt * (cp.2 / countryCapMt cp.1 slots), false⟩ : Slot)
              else s), rem - cp.2)
            else (slots, rem)) = _
        rw [if_pos hcond]
      rw [hstep]
      have hz2 : ∀ cp2 ∈ t, ∀ s2 ∈ slots.map (fun s => if s.plant.country = cp.1
          then (⟨s.plant, s.plant.capMt * (cp.2 / countryCapMt cp.1 slots), false⟩ : Slot)
          else s), s2.plant.country = cp2.1 → s2.alloc = 0 := by
        intro cp2 hcp2 s2 hs2mem hc2
        rcases List.mem_map.mp hs2mem with ⟨s, hs, rfl⟩
        by_cases hcs : s.plant.country = cp.1
        · exfalso
          apply hnotin
          have hc2a : s.plant.country = cp2.1 := by rw [if_pos hcs] at hc2; exact hc2
          have heq : cp.1 = cp2.1 := hcs.symm.trans hc2a
          rw [heq]
          exact List.mem_map_of_mem Prod.fst hcp2
        · have hc2a : s.plant.country = cp2.1 := by rw [if_neg hcs] at hc2; exact hc2
          rw [if_neg hcs]
          exact hz cp2 (List.mem_cons_of_mem cp hcp2) s hs hc2a
      have hI22 : ∀ s2 ∈ slots.map (fun s => if s.plant.country = cp.1
          then (⟨s.plant, s.plant.capMt * (cp.2 / countryCapMt cp.1 slots), false⟩ : Slot)
          else s), s2.unm = true → s2.alloc = 0 := by
        intro s2 hs2mem hu
        rcases List.mem_map.mp hs2mem with ⟨s, hs, rfl⟩
        by_cases hcs : s.plant.country = cp.1
        · rw [if_pos hcs] at hu
          exact absurd hu (by simp)
        · rw [if_neg hcs] at hu ⊢
          exact hI2 s hs hu
      obtain ⟨hsum, hI2f⟩ := ih _ (rem - cp.2) hnd2 hz2 hI22
      refine ⟨?_, hI2f⟩
      rw [hsum]
      have h0 : ∀ s ∈ slots, s.plant.country = cp.1 → s.alloc = 0 :=
        fun s hs hc => hz cp (List.mem_cons_self cp t) s hs hc
      rw [sumAlloc_assign cp.1 _ slots h0]
      rw [mul_comm (countryCapMt cp.1 slots) (cp.2 / countryCapMt cp.1 slots),
          div_mul_cancel₀ cp.2 (ne_of_gt hcond.1)]
      ring
    · have hstep : stepCountry (slots, rem) cp = (slots, rem) := by
        show (if 0 < countryCapMt cp.1 slots
            ∧ slots.any (fun s => decide (s.plant.country = cp.1))
            then (slots.map (fun s => if s.plant.country = cp.1
              then (⟨s.plant, s.plant.capMt * (cp.2 / countryCapMt cp.1 slots), false⟩ : Slot)
              else s), rem - cp.2)
            else (slots, rem)) = _
        rw [if_neg hcond]
      rw [hstep]
      exact ih slots rem hnd2
        (fun cp2 h2 => hz cp2 (List.mem_cons_of_mem cp h2)) hI2

/-- C1 counterexample: one plant of 10 Mt capacity in country "A" with a
sub-target of 5 Mt and an entity target of 9 Mt.  Total active capacity is
positive, but every unit has a sub-target, so the 4 Mt residual has no
unit to be spread over and the allocated sum is 5 ≠ 9: the claim fails as
stated for the region-sub-target mode. -/
theorem C1_allocation_sum_counterexample :
    0 < totalCapMt [⟨.operating, some 2000, "A", 10000, 1⟩]
    ∧ (countryAllocation [⟨.operating, some 2000, "A", 10000, 1⟩] [("A", 5)] 9).sum ≠ 9 := by
  constructor
  · norm_num [totalCapMt]
  · have h : countryAllocation [⟨.operating, some 2000, "A", 10000, 1⟩] [("A", 5)] 9
        = [5] := by
      norm_num [countryAllocation, countryFoldState, initSlots, stepCountry,
        residualSpread, countryCapMt, unmCapMt, GemPlant.capMt, List.filter_cons]
    rw [h]
    norm_num

/-- C1 amended: for every plant set with positive total active capacity,
the uniform-utilization allocation sums exactly to the entity target
(exactly, in rational arithmetic — hence within floating-point tolerance);
the region-sub-target allocation sums to the target provided the region
keys are distinct and the residual production left after the sub-target
pass is zero, or is positive with positive unmatched capacity to absorb it
(otherwise — sub-targets exceeding the target, or a positive residual with
no unit lacking a sub-target — the sum can differ from the target, as the
counterexample shows). -/
theorem C1_allocation_sum_amended :
    ∀ (ps : List GemPlant) (production : ℚ), 0 < totalCapMt ps →
    (uniformAllocation ps production).sum = production
    ∧ (∀ cps : List (String × ℚ), (cps.map Prod.fst).Nodup →
        (allocRemaining ps cps production = 0
          ∨ (0 < allocRemaining ps cps production
             ∧ 0 < allocUnmatchedCapMt ps cps production)) →
        (countryAllocation ps cps production).sum = production) := by
  intro ps production hcap
  constructor
  · unfold uniformAllocation
    have hmul : ∀ (l : List GemPlant) (k : ℚ),
        (l.map (fun p => p.capMt * k)).sum = (l.map (·.capacityTtpa)).sum / 1000 * k := by
      intro l k
      induction l with
      | nil => simp
      | cons p t ih =>
        rw [List.map_cons, List.sum_cons, ih, List.map_cons, List.sum_cons, GemPlant.capMt]
        ring
    rw [hmul]
    rw [show (ps.map (·.capacityTtpa)).sum / 1000 = totalCapMt ps from rfl]
    rw [mul_comm, div_mul_cancel₀ production (ne_of_gt hcap)]
  · intro cps hnd hres
    have hz0 : ∀ cp ∈ cps, ∀ s ∈ initSlots ps, s.plant.country = cp.1 → s.alloc = 0 := by
      intro cp _ s hs _
      rcases List.mem_map.mp hs with ⟨p, _, rfl⟩
      rfl
    have hI20 : ∀ s ∈ initSlots ps, s.unm = true → s.alloc = 0 := by
      intro s hs _
      rcases List.mem_map.mp hs with ⟨p, _, rfl⟩
      rfl
    obtain ⟨hsum0, hI2⟩ := countryFold_invariant cps (initSlots ps) production hnd hz0 hI20
    rw [sumAlloc_initSlots, add_zero] at hsum0
    have hsum : (countryFoldState ps cps production).2
        + sumAlloc (countryFoldState ps cps production).1 = production := hsum0
    have hI2f : ∀ s ∈ (countryFoldState ps cps production).1,
        s.unm = true → s.alloc = 0 := hI2
    show sumAlloc (residualSpread (countryFoldState ps cps production)) = production
    rcases hres with h0 | ⟨hR, hU⟩
    · have h0f : (countryFoldState ps cps production).2 = 0 := h0
      have hrs : residualSpread (countryFoldState ps cps production)
          = (countryFoldState ps cps production).1 := by
        show (if 0 < (countryFoldState ps cps production).2
            ∧ (countryFoldState ps cps production).1.any (·.unm)
            then if 0 < unmCapMt (countryFoldState ps cps production).1
              then (countryFoldState ps cps production).1.map (fun s =>
                if s.unm then ⟨s.plant, s.plant.capMt *
                  ((countryFoldState ps cps production).2
                    / unmCapMt (countryFoldState ps cps production).1), s.unm⟩ else s)
              else (countryFoldState ps cps production).1
            else (countryFoldState ps cps production).1) = _
        rw [if_neg]
        intro hcon
        exact absurd (h0f ▸ hcon.1) (lt_irrefl 0)
      rw [hrs]
      linarith [hsum, h0f]
    · have hRf : 0 < (countryFoldState ps cps production).2 := hR
      have hUf : 0 < unmCapMt (countryFoldState ps cps production).1 := hU
      have hany := any_unm_of_capPos hUf
      have hrs : residualSpread (countryFoldState ps cps production)
          = (countryFoldState ps cps production).1.map (fun s =>
              if s.unm then ⟨s.plant, s.plant.capMt *
                ((countryFoldState ps cps production).2
                  / unmCapMt (countryFoldState ps cps production).1), s.unm⟩ else s) := by
        show (if 0 < (countryFoldState ps cps production).2
            ∧ (countryFoldState ps cps production).1.any (·.unm)
            then if 0 < unmCapMt (countryFoldState ps cps production).1
              then (countryFoldState ps cps production).1.map (fun s =>
                if s.unm then ⟨s.plant, s.plant.capMt *
                  ((countryFoldState ps cps production).2
                    / unmCapMt (countryFoldState ps cps production).1), s.unm⟩ else s)
              else (countryFoldState ps cps production).1
            else (countryFoldState ps cps production).1) = _
        rw [if_pos ⟨hRf, hany⟩, if_pos hUf]
      rw [hrs, sumAlloc_spread _ _ hI2f]
      rw [mul_comm, div_mul_cancel₀ _ (ne_of_gt hUf)]
      linarith [hsum]

/-- C1 witness: two plants (10 Mt in "A", 2 Mt in "B"), target 9 Mt.
Uniform allocation sums to 9; with sub-target 5 for "A", the 4 Mt residual
is spread over "B" and the sum is again 9. -/
theorem C1_allocation_sum_witness :
    (uniformAllocation [⟨.operating, some 2000, "A", 10000, 1⟩,
       ⟨.operating, some 2000, "B", 2000, 1⟩] 9).sum = 9
    ∧ (countryAllocation [⟨.operating, some 2000, "A", 10000, 1⟩,
       ⟨.operating, some 2000, "B", 2000, 1⟩] [("A", 5)] 9).sum = 9 := by
  have h1 : 0 < totalCapMt [(⟨.operating, some 2000, "A", 10000, 1⟩ : GemPlant),
      ⟨.operating, some 2000, "B", 2000, 1⟩] := by
    norm_num [totalCapMt]
  refine ⟨(C1_allocation_sum_amended _ 9 h1).1, ?_⟩
  apply (C1_allocation_sum_amended _ 9 h1).2 [("A", 5)] (by simp)
  right
  constructor
  · have h : allocRemaining [(⟨.operating, some 2000, "A", 10000, 1⟩ : GemPlant),
        ⟨.operating, some 2000, "B", 2000, 1⟩] [("A", 5)] 9 = 4 := by
      norm_num [allocRemaining, countryFoldState, initSlots, stepCountry,
        countryCapMt, GemPlant.capMt, List.filter_cons,
        show ("B" : String) ≠ "A" by decide]
    rw [h]
    norm_num
  · have h : allocUnmatchedCapMt [(⟨.operating, some 2000, "A", 10000, 1⟩ : GemPlant),
        ⟨.operating, some 2000, "B", 2000, 1⟩] [("A", 5)] 9 = 2 := by
      norm_num [allocUnmatchedCapMt, countryFoldState, initSlots, stepCountry,
        countryCapMt, unmCapMt, GemPlant.capMt, List.filter_cons,
        show ("B" : String) ≠ "A" by decide]
    rw [h]
    norm_num

end AssetData
